import Mathlib

set_option maxRecDepth 8192

/-!
Formal model of the luna voice-assistant real-time core.

The definitions below are a shallow embedding of the repository sources:

* `src/luna_assistant/audio.py` (`AudioIO.record_until_vad_end`): the
  VAD-driven speech segmenter with pre-roll ring buffer;
* `src/luna_assistant/wakeword.py` (`WakeWord._wait_openwakeword`): the
  streaming-acoustic-model wake detector;
* `src/app/assistant.py` (`_strip_wake_phrase`, `LunaAssistant.run`): the
  dialogue session state machine and the outer assistant loop;
* `src/app/memory_store.py` (`TurnRecord`): the dataclass used for turn
  logging.

Python strings are modelled as lists of code points (`PyStr`), Python
floats (wall-clock seconds, scores, thresholds) as rationals, and the
external collaborators (microphone, webrtcvad, openwakeword scoring,
whisper.cpp, Ollama, Piper, the sqlite store) as inputs supplied by the
environment: each turn carries the results those collaborators would
return, including their failure modes.
-/

/-- Python-style string: a sequence of Unicode code points. -/
abbrev PyStr := List Char

/-- Code points of a string literal. -/
def py (s : String) : PyStr := s.data

/-- Python `str.strip()`: remove leading and trailing whitespace. -/
def pyStrip (s : PyStr) : PyStr :=
  ((s.dropWhile Char.isWhitespace).reverse.dropWhile Char.isWhitespace).reverse

/-- Python `str.lower()` (ASCII case folding, which covers every string the
assistant handles). -/
def pyLower (s : PyStr) : PyStr := s.map Char.toLower

/-- Python `str.startswith(p)`. -/
def pyStartsWith (s p : PyStr) : Bool := p.isPrefixOf s

/-- Python `str.lstrip(cs)`: drop leading characters that belong to `cs`. -/
def pyLstrip (cs : List Char) (s : PyStr) : PyStr :=
  s.dropWhile (fun c => cs.contains c)

/-- Python substring test `needle in hay`. -/
def pyContainsSub (hay needle : PyStr) : Bool :=
  hay.tails.any (fun t => needle.isPrefixOf t)

/-! ## Speech segmenter (`src/luna_assistant/audio.py`, `record_until_vad_end`) -/

/-- One audio frame as consumed by `record_until_vad_end`: the raw int16
samples of the chunk together with the per-frame webrtcvad decision
`vad.is_speech(chunk, rate)`.  The VAD is an external collaborator, so its
verdict is part of the input frame. -/
structure Frame where
  voiced : Bool
  samples : List ℤ
deriving DecidableEq

/-- Frame-count trigger parameters of the segmenter. -/
structure SegParams where
  startTriggerFrames : ℕ
  endTriggerFrames : ℕ
  preRollFrames : ℕ
deriving DecidableEq

/-- Parameter derivation of `record_until_vad_end` (audio.py lines 58-60):
`start_trigger_frames = max(1, start_trigger_ms // frame_ms)`,
`end_trigger_frames = max(1, end_trigger_ms // frame_ms)`,
`pre_roll_frames = max(0, pre_roll_ms // frame_ms)`. -/
def segParamsOfMs (startTriggerMs endTriggerMs preRollMs frameMs : ℕ) : SegParams :=
  ⟨max 1 (startTriggerMs / frameMs), max 1 (endTriggerMs / frameMs),
    max 0 (preRollMs / frameMs)⟩

/-- Mutable state of the capture loop (audio.py lines 74-78). -/
structure SegState where
  ring : List Frame
  captured : List Frame
  speechStarted : Bool
  speechFrames : ℕ
  silenceFrames : ℕ
deriving DecidableEq

/-- Initial loop state: empty ring, nothing captured, waiting for speech. -/
def initSegState : SegState := ⟨[], [], false, 0, 0⟩

/-- `ring.append(chunk)` followed by the overflow eviction
`if len(ring) > max(pre_roll_frames, 1): ring.pop(0)` (audio.py lines 90-92). -/
def pushRing (cap : ℕ) (ring : List Frame) (f : Frame) : List Frame :=
  let r := ring ++ [f]
  if cap < r.length then r.drop 1 else r

/-- Capture loop of `record_until_vad_end` (audio.py lines 82-129).  Each
stream element carries the elapsed wall-clock seconds observed at the top of
the iteration (`time.time() - t0`) and the frame read from the microphone;
exhaustion of the list models a short read from `arecord`.  Python's
`max(0, speech_frames - 1)` decay is natural-number subtraction. -/
def runSeg (p : SegParams) (maxSeconds : ℚ) : SegState → List (ℚ × Frame) → SegState
  | s, [] => s
  | s, (t, f) :: rest =>
    if maxSeconds < t then s
    else
      let ring := pushRing (max p.preRollFrames 1) s.ring f
      if s.speechStarted then
        let captured := s.captured ++ [f]
        if f.voiced then runSeg p maxSeconds ⟨ring, captured, true, s.speechFrames, 0⟩ rest
        else
          let sil := s.silenceFrames + 1
          if p.endTriggerFrames ≤ sil then ⟨ring, captured, true, s.speechFrames, sil⟩
          else runSeg p maxSeconds ⟨ring, captured, true, s.speechFrames, sil⟩ rest
      else
        let sp := if f.voiced then s.speechFrames + 1 else s.speechFrames - 1
        if p.startTriggerFrames ≤ sp then
          runSeg p maxSeconds ⟨[], s.captured ++ ring, true, sp, 0⟩ rest
        else runSeg p maxSeconds ⟨ring, s.captured, false, sp, s.silenceFrames⟩ rest

/-- The same loop without the wall-clock cap; `runSeg` agrees with it on any
stream whose observed times never exceed `maxSeconds`
(lemma `runSeg_eq_runSegU`). -/
def runSegU (p : SegParams) : SegState → List Frame → SegState
  | s, [] => s
  | s, f :: rest =>
    let ring := pushRing (max p.preRollFrames 1) s.ring f
    if s.speechStarted then
      let captured := s.captured ++ [f]
      if f.voiced then runSegU p ⟨ring, captured, true, s.speechFrames, 0⟩ rest
      else
        let sil := s.silenceFrames + 1
        if p.endTriggerFrames ≤ sil then ⟨ring, captured, true, s.speechFrames, sil⟩
        else runSegU p ⟨ring, captured, true, s.speechFrames, sil⟩ rest
    else
      let sp := if f.voiced then s.speechFrames + 1 else s.speechFrames - 1
      if p.startTriggerFrames ≤ sp then
        runSegU p ⟨[], s.captured ++ ring, true, sp, 0⟩ rest
      else runSegU p ⟨ring, s.captured, false, sp, s.silenceFrames⟩ rest

/-- Concatenated int16 samples of the captured frames
(`pcm = b"".join(captured)`, audio.py line 140). -/
def joinedSamples (frames : List Frame) : List ℤ :=
  (frames.map Frame.samples).flatten

/-- `dur_ms = (len(audio_i16) / rate) * 1000` with `rate = 16000`
(audio.py line 144). -/
def durMsOf (samples : List ℤ) : ℚ :=
  ((samples.length : ℚ) / 16000) * 1000

/-- Mean of `(sample / 32768) ** 2` over the buffer; `rms` in the source is
`sqrt(meanSqOf xs + rmsEps)` (audio.py line 145). -/
def meanSqOf (samples : List ℤ) : ℚ :=
  ((samples.map (fun v => ((v : ℚ) / 32768) ^ 2)).sum) / (samples.length : ℚ)

/-- The `1e-12` epsilon the source adds under the square root. -/
def rmsEps : ℚ := 1 / 10 ^ 12

/-- Post-capture validation and result of `record_until_vad_end`
(audio.py lines 134-160): `none` models `return False` (no speech), `some xs`
models `return True` with `xs` the samples written to the output WAV.  The
source rejects when `dur_ms < min_speech_ms or rms < min_rms` with
`rms = sqrt(mean + 1e-12)`; since `min_rms ≥ 0` in every use, that comparison
is equivalent to the squared form `mean + 1e-12 < min_rms ** 2` used here,
which avoids irrational square roots. -/
def recordUntilVadEnd (p : SegParams) (maxSeconds minSpeechMs minRms : ℚ)
    (stream : List (ℚ × Frame)) : Option (List ℤ) :=
  let st := runSeg p maxSeconds initSegState stream
  if st.captured = [] then none
  else
    let xs := joinedSamples st.captured
    if durMsOf xs < minSpeechMs ∨ meanSqOf xs + rmsEps < minRms ^ 2 then none
    else some xs

/-- Last `n` elements of a list (used to describe the ring-buffer content). -/
def lastN {α : Type} (n : ℕ) (l : List α) : List α := l.drop (l.length - n)

/-! ## Streaming wake detector (`src/luna_assistant/wakeword.py`) -/

/-- Configuration of the openwakeword detector (threshold and refractory
seconds; block size only shapes the byte reads and is not needed here). -/
structure OwwCfg where
  threshold : ℚ
  refractoryS : ℚ
deriving DecidableEq

/-- One iteration input of the `_wait_openwakeword` read loop: whether
`p.stdout.read(block_bytes)` returned a complete block, the openwakeword
score of the block, and the `time.time()` value observed for it. -/
structure OwwBlock where
  fullRead : Bool
  score : ℚ
  now : ℚ
deriving DecidableEq

/-- Read loop of `_wait_openwakeword` (wakeword.py lines 88-101): short reads
are skipped (`continue`); the call returns at the first block with
`score >= threshold and (now - last_fire) >= refractory_s`, yielding the fire
time.  `none` models a stream that ended with no fire (in the source the loop
would block forever waiting for more audio). -/
def owwLoop (cfg : OwwCfg) (lastFire : ℚ) : List OwwBlock → Option ℚ
  | [] => none
  | b :: rest =>
    if b.fullRead then
      if cfg.threshold ≤ b.score ∧ cfg.refractoryS ≤ b.now - lastFire then some b.now
      else owwLoop cfg lastFire rest
    else owwLoop cfg lastFire rest

/-- One `wait()` invocation in openwakeword mode: `last_fire` is a local
variable initialized to `0.0` (wakeword.py line 84), so every invocation
starts from the same value. -/
def waitOpenWakeWord (cfg : OwwCfg) (blocks : List OwwBlock) : Option ℚ :=
  owwLoop cfg 0 blocks

/-- A block on which a fresh invocation fires: complete read, score at or
above threshold, and a timestamp at least `refractory_s` after the per-call
initial `last_fire = 0.0`. -/
def owwQualifies (cfg : OwwCfg) (b : OwwBlock) : Bool :=
  b.fullRead && decide (cfg.threshold ≤ b.score) && decide (cfg.refractoryS ≤ b.now)

/-- Fire timestamps produced by a sequence of successive `wait()`
invocations (each element is the block stream seen by one invocation). -/
def wakeFires (cfg : OwwCfg) (invocations : List (List OwwBlock)) : List ℚ :=
  invocations.filterMap (waitOpenWakeWord cfg)

/-! ## Dialogue session (`src/app/assistant.py`) -/

/-- Per-turn failures of the external collaborators (spec section 7):
whisper.cpp exiting nonzero, the Ollama HTTP request failing, Piper
synthesis/playback failing. -/
inductive TurnError
  | transcriptionFailed
  | chatRequestFailed
  | synthesisFailed
deriving DecidableEq

/-- External collaborator invocations observable during one turn. -/
inductive Collab
  | asr
  | llm
  | tts
  | memoryRead
deriving DecidableEq

/-- Characters removed by `lstrip(" \t\r\n,.:;!?-")`
(assistant.py lines 32 and 194). -/
def noiseChars : List Char :=
  [' ', '\t', '\r', '\n', ',', '.', ':', ';', '!', '?', '-']

/-- `_strip_wake_phrase` (assistant.py lines 15-33): `none` models a `None`
return. -/
def stripWakePhrase (text wakePhrase : PyStr) : Option PyStr :=
  let t := pyStrip text
  if t = [] then none
  else
    let wp := pyLower (pyStrip wakePhrase)
    if wp = [] then some t
    else if pyStartsWith (pyLower t) wp then
      let rest := pyLstrip noiseChars (pyStrip (t.drop wp.length))
      if rest = [] then none else some rest
    else none

/-- `_looks_like_self_tts` (assistant.py lines 126-132). -/
def looksLikeSelfTts (text : PyStr) : Bool :=
  let t := pyLower (pyStrip text)
  t.isEmpty || pyContainsSub t (py "luna is listening")

/-- The local memory-command set (assistant.py line 205). -/
def memoryCommandSet : List PyStr :=
  [py "list memories", py "memories", py "show memories"]

/-- Membership test `stripped.strip().lower() in {...}` (assistant.py
line 205). -/
def isMemoryCommand (text : PyStr) : Bool :=
  memoryCommandSet.contains (pyLower (pyStrip text))

/-- A `(k, v, score, pinned, created_at)` row returned by the memory store,
restricted to the fields the session reads. -/
structure MemRow where
  k : PyStr
  v : PyStr
  pinnedFlag : Bool
deriving DecidableEq

/-- One `f"- {k}: {v}"` listing line (assistant.py lines 216 and 222). -/
def memLine (r : MemRow) : PyStr := py "- " ++ r.k ++ py ": " ++ r.v

/-- Text spoken by the local memory-listing branch (assistant.py
lines 205-224): pinned rows, then non-pinned recent rows. -/
def memorySpeech (pinned recent : List MemRow) : PyStr :=
  if pinned.isEmpty && recent.isEmpty then py "No memories stored yet."
  else
    List.intercalate (py "\n")
      ((if pinned.isEmpty then [] else py "Pinned memories:" :: pinned.map memLine) ++
        (if recent.isEmpty then [] else
          py "Recent memories:" ::
            (recent.filter (fun r => !r.pinnedFlag)).map memLine))

/-- Awake-window clamp of `LunaAssistant.__init__` (assistant.py lines
97-103): `self.awake_window_s = v if v >= 60.0 else 300.0`.  A configured
value of `0` is also replaced by `300.0` earlier via `or 300.0`; both routes
yield `300`, so the clamp below covers them. -/
def awakeWindow (configured : ℚ) : ℚ :=
  if 60 ≤ configured then configured else 300

/-- Session-loop state of `LunaAssistant.run` (assistant.py lines 149-153):
`last_luna_cmd_ts` and `free_commands_left`. -/
structure SessState where
  lastLunaCmdTs : ℚ
  freeCommandsLeft : ℕ
deriving DecidableEq

/-- Environment of one iteration of the inner turn loop: the monotonic time
observed during the turn, whether `record_until_vad_end` returned `True`,
and the results the external ASR/LLM/TTS/memory collaborators would produce
this turn. -/
structure TurnEnv where
  now : ℚ
  captureOk : Bool
  asrResult : Except TurnError PyStr
  llmReply : Except TurnError PyStr
  ttsOk : Bool
  pinned : List MemRow
  recent : List MemRow

/-- Outcome of the command-classification step. -/
inductive TurnDecision
  | discard
  | command (text : PyStr) (resetsIdle : Bool)
deriving DecidableEq

/-- Command classification (assistant.py lines 179-196): free commands are
accepted as-is and decrement the counter; afterwards the wake-phrase prefix
is required and stripped; both paths then lstrip leading noise characters and
discard empty remainders.  The `Bool` in `command` is `starts_with_luna`,
which is forced `true` on the stripping path (line 192). -/
def decideTurn (wakePhrase : PyStr) (free : ℕ) (rawText : PyStr) : TurnDecision × ℕ :=
  let wp := pyLower (pyStrip wakePhrase)
  let rawL := pyLower (pyStrip rawText)
  if 0 < free then
    let stripped := pyLstrip noiseChars rawText
    if stripped = [] then (.discard, free - 1)
    else (.command stripped (!wp.isEmpty && pyStartsWith rawL wp), free - 1)
  else
    match stripWakePhrase rawText wakePhrase with
    | none => (.discard, free)
    | some st =>
      let stripped := pyLstrip noiseChars st
      if stripped = [] then (.discard, free)
      else (.command stripped true, free)

/-- What one turn produced. -/
inductive TurnOutcome
  | discarded
  | memoryListed (spoken : PyStr)
  | replied (command reply : PyStr)
deriving DecidableEq

/-- Fields of the `TurnRecord` dataclass in `src/app/memory_store.py`
(lines 11-21), paired with whether the field has a default value. -/
def turnRecordFields : List (String × Bool) :=
  [("session_id", false), ("ts_unix", false), ("user_text", false),
    ("assistant_text", false), ("asr_ms", true), ("llm_ms", true),
    ("tts_ms", true), ("total_ms", true), ("meta", true)]

/-- Keyword arguments of the call `TurnRecord(user=stripped, assistant=reply)`
(assistant.py line 235). -/
def addTurnKwargs : List String := ["user", "assistant"]

/-- Python dataclass keyword-call semantics: the generated `__init__` raises
`TypeError` unless every keyword names a declared field and every field
without a default is supplied.  (The call site passes no positional and no
duplicate keywords, so those cases need no model.) -/
def mkDataclassOk (fields : List (String × Bool)) (kwargs : List String) : Bool :=
  kwargs.all (fun kw => fields.any (fun fd => fd.1 == kw)) &&
  fields.all (fun fd => fd.2 || kwargs.contains fd.1)

/-- The turn record stored by `store.add_turn(TurnRecord(user=.., assistant=..))`
inside `try/except Exception: pass` (assistant.py lines 234-237): `none` when
the constructor raises and the exception is swallowed. -/
def loggedTurnFor (u a : PyStr) : Option (PyStr × PyStr) :=
  if mkDataclassOk turnRecordFields addTurnKwargs then some (u, a) else none

/-- Collaborator calls on the local memory-listing path. -/
def memoryCalls : List Collab := [.asr, .memoryRead, .tts]

/-- Collaborator calls on the LLM reply path (`_build_pinned_context` reads
the store before `llm.chat`). -/
def replyCalls : List Collab := [.asr, .memoryRead, .llm, .tts]

/-- Result of one completed (non-raising) turn. -/
structure TurnResult where
  outcome : TurnOutcome
  state : SessState
  logged : Option (PyStr × PyStr)
  calls : List Collab
deriving DecidableEq

/-- One iteration of the inner turn loop of `LunaAssistant.run`
(assistant.py lines 156-237).  An `Except.error` models a collaborator
exception propagating out of the iteration: nothing in the loop catches it
(only the `add_turn` logging call sits in a `try/except`). -/
def runTurn (wakePhrase : PyStr) (s : SessState) (env : TurnEnv) :
    Except TurnError TurnResult :=
  if env.captureOk then
    match env.asrResult with
    | .error e => .error e
    | .ok raw0 =>
      let rawText := pyStrip raw0
      if rawText = [] then .ok ⟨.discarded, s, none, [.asr]⟩
      else if looksLikeSelfTts rawText then .ok ⟨.discarded, s, none, [.asr]⟩
      else
        match decideTurn wakePhrase s.freeCommandsLeft rawText with
        | (.discard, free2) => .ok ⟨.discarded, ⟨s.lastLunaCmdTs, free2⟩, none, [.asr]⟩
        | (.command text resets, free2) =>
          let s2 : SessState := ⟨if resets then env.now else s.lastLunaCmdTs, free2⟩
          if isMemoryCommand text then
            if env.ttsOk then
              .ok ⟨.memoryListed (memorySpeech env.pinned env.recent), s2, none, memoryCalls⟩
            else .error .synthesisFailed
          else
            match env.llmReply with
            | .error e => .error e
            | .ok reply =>
              if env.ttsOk then
                .ok ⟨.replied text reply, s2, loggedTurnFor text reply, replyCalls⟩
              else .error .synthesisFailed
  else .ok ⟨.discarded, s, none, []⟩

/-- The inner `while (time.monotonic() - last_luna_cmd_ts) < awake_window_s`
loop (assistant.py line 155): the deadline test uses the time observed at the
top of the iteration; a normal exit returns the final session state, and a
turn exception aborts the whole loop. -/
def runSessionTurns (wakePhrase : PyStr) (window : ℚ) :
    SessState → List TurnEnv → Except TurnError SessState
  | s, [] => .ok s
  | s, env :: rest =>
    if window ≤ env.now - s.lastLunaCmdTs then .ok s
    else
      match runTurn wakePhrase s env with
      | .error e => .error e
      | .ok r => runSessionTurns wakePhrase window r.state rest

/-- One wake-to-sleep cycle of the outer loop: the result of `wake.wait()`,
the monotonic time captured right after the acknowledgment (line 149),
whether speaking the acknowledgment succeeded, and the turn environments of
the session. -/
structure WakeCycle where
  woke : Bool
  wakeNow : ℚ
  ackOk : Bool
  turns : List TurnEnv

/-- The outer `while True` loop of `LunaAssistant.run` (assistant.py lines
139-239): wait for a wake event (`woke = false` models the keyboard quit
path and returns), speak the acknowledgment, run the session with
`free_commands_left = 2`, and go back to sleep.  No handler surrounds the
session, so a turn exception propagates out of `run` itself. -/
def assistantRun (wakePhrase : PyStr) (window : ℚ) : List WakeCycle → Except TurnError Unit
  | [] => .ok ()
  | c :: cs =>
    if c.woke then
      if c.ackOk then
        match runSessionTurns wakePhrase window ⟨c.wakeNow, 2⟩ c.turns with
        | .error e => .error e
        | .ok _ => assistantRun wakePhrase window cs
      else .error .synthesisFailed
    else .ok ()

/-- `LunaAssistant` with the configured awake window: `__init__` clamps the
configured value, `run` uses the clamped `self.awake_window_s`. -/
def assistantMain (cfgAwakeWindowS : ℚ) (wakePhrase : PyStr)
    (cycles : List WakeCycle) : Except TurnError Unit :=
  assistantRun wakePhrase (awakeWindow cfgAwakeWindowS) cycles

/-! ## Concrete instances used by witnesses and counterexamples -/

/-- Detector configuration with the default threshold `0.35` and refractory
`1.2` seconds. -/
def owwCfgC1 : OwwCfg := ⟨35 / 100, 12 / 10⟩

/-- A full block scoring `1.0` at wall-clock time `1000`. -/
def owwBlockA : OwwBlock := ⟨true, 1, 1000⟩

/-- A full block scoring `1.0` one second later. -/
def owwBlockB : OwwBlock := ⟨true, 1, 1001⟩

/-- A turn whose capture succeeds and whose transcription raises. -/
def envAsrFail : TurnEnv := ⟨1, true, .error .transcriptionFailed, .ok (py "ok"), true, [], []⟩

/-- A wake cycle whose first turn hits the failing transcription. -/
def cycleFail : WakeCycle := ⟨true, 0, true, [envAsrFail]⟩

/-- A later wake cycle that would run if control returned to the outer loop. -/
def cycleLater : WakeCycle := ⟨true, 50, true, []⟩

/-- A voiced frame (samples irrelevant to the content claims). -/
def vFr : Frame := ⟨true, []⟩

/-- A non-voiced frame. -/
def nFr : Frame := ⟨false, []⟩

/-- Segmenter parameters with `start_trigger_frames = 3` but ring capacity
`max(pre_roll_frames, 1) = 1`. -/
def pC3cex : SegParams := ⟨3, 1, 1⟩

/-- Exactly `start_trigger_frames` voice frames followed by
`end_trigger_frames` silence frames, all read well before the cap. -/
def streamC3cex : List (ℚ × Frame) := [(0, vFr), (0, vFr), (0, vFr), (0, nFr)]

/-- `segParamsOfMs 40 20 60 20 = ⟨2, 1, 3⟩`. -/
def pC3w : SegParams := segParamsOfMs 40 20 60 20

/-- Five non-voice frames, two voice frames, one silence frame. -/
def streamC3w : List (ℚ × Frame) :=
  [(0, nFr), (0, nFr), (0, nFr), (0, nFr), (0, nFr), (0, vFr), (0, vFr), (0, nFr)]

/-- A voiced frame of two zero samples. -/
def zVoiced : Frame := ⟨true, [0, 0]⟩

/-- A silent (non-voiced) frame of two zero samples. -/
def zSilent : Frame := ⟨false, [0, 0]⟩

/-- Immediate-trigger parameters for the rms counterexample. -/
def pC6 : SegParams := ⟨1, 1, 0⟩

/-- One voiced zero frame, then one silence frame: a clean VAD start/end. -/
def streamC6 : List (ℚ × Frame) := [(0, zVoiced), (0, zSilent)]

/-- `segParamsOfMs 200 450 200 20 = ⟨10, 22, 10⟩`: the defaults of
`record_until_vad_end` at 20 ms frames. -/
def pC7 : SegParams := segParamsOfMs 200 450 200 20

/-- Three voiced frames scattered among silence, then a read past the
20-second cap. -/
def streamC7 : List (ℚ × Frame) := [(0, nFr), (0, vFr), (0, vFr), (25, vFr)]

/-- First free-command turn: a transcript without the wake phrase. -/
def envC4a : TurnEnv := ⟨1, true, .ok (py "what time is it"), .ok (py "noon"), true, [], []⟩

/-- Second free-command turn. -/
def envC4b : TurnEnv := ⟨2, true, .ok (py "tell me a joke"), .ok (py "no"), true, [], []⟩

/-- Third turn, still without the wake phrase. -/
def envC4c : TurnEnv := ⟨3, true, .ok (py "turn off the lights"), .ok (py "done"), true, [], []⟩

/-- A free-command turn whose transcript begins with a comma. -/
def envC4cex : TurnEnv := ⟨5, true, .ok (py ",hi there"), .ok (py "hello"), true, [], []⟩

/-- A turn transcribed as a word that merely begins with the wake phrase. -/
def envC9w : TurnEnv := ⟨7, true, .ok (py "Lunatic weather today"), .ok (py "stormy"), true, [], []⟩

/-- A plain successful turn for the logging witness. -/
def envC10 : TurnEnv := ⟨1, true, .ok (py "hello there"), .ok (py "hi"), true, [], []⟩

/-- Expected result of `runTurn` on `envC10` from a fresh session. -/
def resC10 : TurnResult := ⟨.replied (py "hello there") (py "hi"), ⟨0, 1⟩, none, replyCalls⟩

/-- A turn observed 400 seconds after the last wake-phrase command. -/
def envC8late : TurnEnv := ⟨400, true, .ok (py "hello"), .ok (py "hi"), true, [], []⟩

/-! ## Helper lemmas -/

/-- Dropping a prefix satisfying `p` is idempotent. -/
theorem dropWhile_idem {α : Type} (p : α → Bool) (l : List α) :
    (l.dropWhile p).dropWhile p = l.dropWhile p := by
  induction l with
  | nil => rfl
  | cons a l ih =>
    by_cases h : p a
    · simp [List.dropWhile_cons, h, ih]
    · simp [List.dropWhile_cons, h]

/-- A prefix of a list with no leading `p`-run has no leading `p`-run. -/
theorem dropWhile_eq_self_of_prefix {α : Type} {p : α → Bool} {l₁ l₂ : List α}
    (hpre : l₁ <+: l₂) (h : l₂.dropWhile p = l₂) : l₁.dropWhile p = l₁ := by
  cases l₁ with
  | nil => rfl
  | cons a t =>
    obtain ⟨rest, hrest⟩ := hpre
    by_cases ha : p a
    · exfalso
      rw [← hrest, List.cons_append, List.dropWhile_cons, if_pos ha] at h
      have hle := (List.dropWhile_suffix (l := t ++ rest) p).length_le
      have h2 := congrArg List.length h
      simp only [List.length_cons] at h2
      omega
    · rw [List.dropWhile_cons, if_neg ha]

/-- Python `strip()` is idempotent. -/
theorem pyStrip_idem (s : PyStr) : pyStrip (pyStrip s) = pyStrip s := by
  unfold pyStrip
  set w := Char.isWhitespace
  set y := s.dropWhile w with hy
  set z := y.reverse.dropWhile w with hz
  have hzidem : z.dropWhile w = z := by rw [hz]; exact dropWhile_idem w y.reverse
  have hyidem : y.dropWhile w = y := by rw [hy]; exact dropWhile_idem w s
  have hpre : z.reverse <+: y := by
    have hsfx : z <:+ y.reverse := List.dropWhile_suffix w
    have h2 : z.reverse <+: y.reverse.reverse := List.reverse_prefix.mpr hsfx
    rwa [List.reverse_reverse] at h2
  have h1 : z.reverse.dropWhile w = z.reverse := dropWhile_eq_self_of_prefix hpre hyidem
  rw [h1, List.reverse_reverse, hzidem]

/-- Python `lstrip(cs)` is idempotent. -/
theorem pyLstrip_idem (cs : List Char) (s : PyStr) :
    pyLstrip cs (pyLstrip cs s) = pyLstrip cs s :=
  dropWhile_idem _ s

/-- A list of length at most `n` is its own last `n` elements. -/
theorem lastN_of_le {α : Type} {n : ℕ} {l : List α} (h : l.length ≤ n) : lastN n l = l := by
  unfold lastN
  rw [Nat.sub_eq_zero_of_le h, List.drop_zero]

/-- The last `n` elements are at most `n` elements. -/
theorem lastN_length_le {α : Type} (n : ℕ) (l : List α) : (lastN n l).length ≤ n := by
  unfold lastN
  rw [List.length_drop]
  omega

/-- Appending to a ring that is within capacity keeps exactly the last
`cap` elements. -/
theorem pushRing_eq_lastN {cap : ℕ} {R : List Frame} (f : Frame) (h : R.length ≤ cap) :
    pushRing cap R f = lastN cap (R ++ [f]) := by
  unfold pushRing lastN
  simp only [List.length_append, List.length_cons, List.length_nil]
  by_cases hc : cap < R.length + 1
  · rw [if_pos (by simpa using hc), show R.length + 0 + 1 - cap = 1 by omega]
  · rw [if_neg (by simpa using hc), show R.length + 0 + 1 - cap = 0 by omega, List.drop_zero]

/-- Taking the last `n` elements twice around an append collapses. -/
theorem lastN_lastN_append {α : Type} (n : ℕ) (xs ys : List α) :
    lastN n (lastN n xs ++ ys) = lastN n (xs ++ ys) := by
  unfold lastN
  have hk : xs.length - n ≤ xs.length := Nat.sub_le _ _
  rw [← List.drop_append_of_le_length hk, List.drop_drop, List.length_drop,
    List.length_append]
  congr 1
  omega

/-- On a stream whose observed times never exceed the cap, the timed capture
loop agrees with the time-free loop. -/
theorem runSeg_eq_runSegU (p : SegParams) (maxS : ℚ) (stream : List (ℚ × Frame)) :
    ∀ s : SegState, (∀ x ∈ stream, ¬ maxS < x.1) →
      runSeg p maxS s stream = runSegU p s (stream.map Prod.snd) := by
  induction stream with
  | nil => intro s _; rfl
  | cons x rest ih =>
    intro s h
    obtain ⟨t, f⟩ := x
    have ht : ¬ maxS < t := h (t, f) (List.mem_cons_self _ _)
    have hrest : ∀ x ∈ rest, ¬ maxS < x.1 := fun x hx => h x (List.mem_cons_of_mem _ hx)
    simp only [runSeg, runSegU, List.map_cons, if_neg ht]
    by_cases hs : s.speechStarted = true
    · rw [if_pos hs, if_pos hs]
      by_cases hv : f.voiced = true
      · rw [if_pos hv, if_pos hv]
        exact ih _ hrest
      · rw [if_neg hv, if_neg hv]
        by_cases he : p.endTriggerFrames ≤ s.silenceFrames + 1
        · rw [if_pos he, if_pos he]
        · rw [if_neg he, if_neg he]
          exact ih _ hrest
    · rw [if_neg hs, if_neg hs]
      by_cases htr : p.startTriggerFrames ≤ (if f.voiced then s.speechFrames + 1 else s.speechFrames - 1)
      · rw [if_pos htr, if_pos htr]
        exact ih _ hrest
      · rw [if_neg htr, if_neg htr]
        exact ih _ hrest

/-- While the voice-frame counter stays below `start_trigger_frames`, the
loop never leaves the waiting state and never captures a frame; the counter
never exceeds the number of voiced frames seen, so a stream with fewer than
`start_trigger_frames` voiced frames keeps the invariant whatever the order
of its frames, whether it ends by time-out or exhaustion. -/
theorem segWaiting (p : SegParams) (maxS : ℚ) (stream : List (ℚ × Frame)) :
    ∀ s : SegState, s.speechStarted = false → s.captured = [] →
      s.speechFrames + stream.countP (fun x => x.2.voiced) < p.startTriggerFrames →
      (runSeg p maxS s stream).speechStarted = false ∧
        (runSeg p maxS s stream).captured = [] := by
  induction stream with
  | nil => intro s h1 h2 _; simp only [runSeg]; exact ⟨h1, h2⟩
  | cons x rest ih =>
    intro s h1 h2 h3
    obtain ⟨t, f⟩ := x
    rw [List.countP_cons] at h3
    by_cases ht : maxS < t
    · simp only [runSeg, if_pos ht]; exact ⟨h1, h2⟩
    · simp only [runSeg, if_neg ht, h1, Bool.false_eq_true, if_false]
      by_cases hv : f.voiced = true
      · have h3a : s.speechFrames + 1 + rest.countP (fun x => x.2.voiced)
            < p.startTriggerFrames := by
          simp [hv] at h3; omega
        have htr : ¬ p.startTriggerFrames ≤ s.speechFrames + 1 := by omega
        simp only [hv, eq_self_iff_true, if_true]
        rw [if_neg htr]
        refine ih _ rfl h2 ?_
        show s.speechFrames + 1 + rest.countP (fun x => x.2.voiced) < p.startTriggerFrames
        omega
      · have h3a : s.speechFrames + rest.countP (fun x => x.2.voiced)
            < p.startTriggerFrames := by
          simp [hv] at h3; omega
        have htr : ¬ p.startTriggerFrames ≤ s.speechFrames - 1 := by omega
        simp only [hv, Bool.false_eq_true, if_false]
        rw [if_neg htr]
        refine ih _ rfl h2 ?_
        show s.speechFrames - 1 + rest.countP (fun x => x.2.voiced) < p.startTriggerFrames
        omega

/-- During an all-non-voice prefix the waiting loop only slides the pre-roll
ring: the counter stays at `0` and the ring ends up holding the last
`max(pre_roll_frames, 1)` frames seen. -/
theorem segU_nonvoice_wait (p : SegParams) (hst : 1 ≤ p.startTriggerFrames) :
    ∀ (A rest R : List Frame) (sil : ℕ),
      (∀ a ∈ A, a.voiced = false) → R.length ≤ max p.preRollFrames 1 →
      runSegU p ⟨R, [], false, 0, sil⟩ (A ++ rest)
        = runSegU p ⟨lastN (max p.preRollFrames 1) (R ++ A), [], false, 0, sil⟩ rest := by
  intro A
  induction A with
  | nil =>
    intro rest R sil _ hR
    rw [List.nil_append, List.append_nil, lastN_of_le hR]
  | cons a A ih =>
    intro rest R sil hA hR
    have hav : a.voiced = false := hA a (List.mem_cons_self _ _)
    have hA' : ∀ x ∈ A, x.voiced = false := fun x hx => hA x (List.mem_cons_of_mem _ hx)
    rw [List.cons_append]
    show runSegU p ⟨R, [], false, 0, sil⟩ (a :: (A ++ rest)) = _
    simp only [runSegU, Bool.false_eq_true, if_false, hav]
    rw [if_neg (by omega : ¬ p.startTriggerFrames ≤ 0 - 1)]
    rw [pushRing_eq_lastN a hR]
    rw [ih rest (lastN (max p.preRollFrames 1) (R ++ [a])) sil hA' (lastN_length_le _ _)]
    rw [lastN_lastN_append]
    rw [show (R ++ [a]) ++ A = R ++ (a :: A) by simp]

/-- A run of voiced frames that completes the start trigger flips the loop
into the speech state, captures the ring content of that moment, and clears
the ring. -/
theorem segU_voice_trigger (p : SegParams) :
    ∀ (B rest R : List Frame) (c sil : ℕ),
      (∀ b ∈ B, b.voiced = true) → c + B.length = p.startTriggerFrames →
      c < p.startTriggerFrames → R.length ≤ max p.preRollFrames 1 →
      runSegU p ⟨R, [], false, c, sil⟩ (B ++ rest)
        = runSegU p ⟨[], lastN (max p.preRollFrames 1) (R ++ B), true,
            p.startTriggerFrames, 0⟩ rest := by
  intro B
  induction B with
  | nil => intro rest R c sil _ hlen hc _; exfalso; simp at hlen; omega
  | cons b B ih =>
    intro rest R c sil hB hlen hc hR
    have hbv : b.voiced = true := hB b (List.mem_cons_self _ _)
    have hB' : ∀ x ∈ B, x.voiced = true := fun x hx => hB x (List.mem_cons_of_mem _ hx)
    rw [List.length_cons] at hlen
    rw [List.cons_append]
    show runSegU p ⟨R, [], false, c, sil⟩ (b :: (B ++ rest)) = _
    simp only [runSegU, Bool.false_eq_true, if_false, hbv, eq_self_iff_true, if_true]
    by_cases htr : p.startTriggerFrames ≤ c + 1
    · have hceq : c + 1 = p.startTriggerFrames := by omega
      have hBnil : B = [] := List.length_eq_zero.mp (by omega)
      subst hBnil
      rw [if_pos htr, List.nil_append, List.nil_append, pushRing_eq_lastN b hR, hceq]
    · have hBne : c + 1 + B.length = p.startTriggerFrames := by omega
      rw [if_neg htr, pushRing_eq_lastN b hR]
      rw [ih rest (lastN (max p.preRollFrames 1) (R ++ [b])) (c + 1) sil hB' hBne
        (by omega) (lastN_length_le _ _)]
      rw [lastN_lastN_append]
      rw [show (R ++ [b]) ++ B = R ++ (b :: B) by simp]

/-- In the speech state, a run of exactly the remaining silence budget ends
the capture with every frame of the run appended. -/
theorem segU_silence_end (p : SegParams) :
    ∀ (D rest R K : List Frame) (sp c : ℕ),
      (∀ d ∈ D, d.voiced = false) → c + D.length = p.endTriggerFrames →
      c < p.endTriggerFrames →
      (runSegU p ⟨R, K, true, sp, c⟩ (D ++ rest)).captured = K ++ D := by
  intro D
  induction D with
  | nil => intro _ _ _ _ _ _ hlen hc; exfalso; simp at hlen; omega
  | cons d D ih =>
    intro rest R K sp c hD hlen hc
    have hdv : d.voiced = false := hD d (List.mem_cons_self _ _)
    have hD' : ∀ x ∈ D, x.voiced = false := fun x hx => hD x (List.mem_cons_of_mem _ hx)
    rw [List.length_cons] at hlen
    rw [List.cons_append]
    show (runSegU p ⟨R, K, true, sp, c⟩ (d :: (D ++ rest))).captured = _
    simp only [runSegU, eq_self_iff_true, if_true, hdv, Bool.false_eq_true, if_false]
    by_cases hend : p.endTriggerFrames ≤ c + 1
    · have hDnil : D = [] := List.length_eq_zero.mp (by omega)
      subst hDnil
      rw [if_pos hend]
    · rw [if_neg hend]
      rw [ih rest _ (K ++ [d]) sp (c + 1) hD' (by omega) (by omega)]
      simp

/-! ## Claims C3 and C7: speech segmenter -/

/-- Claim C3, counterexample.  With `start_trigger_frames = 3`,
`end_trigger_frames = 1` and `pre_roll_frames = 1`, a stream of exactly three
voice frames followed by one silence frame yields a capture of only two
frames (`[vFr, nFr]`): the ring (capacity `max(pre_roll_frames, 1) = 1`) has
already evicted the first two voice frames at trigger time.  No decomposition
into a pre-roll part of at most `pre_roll_frames` frames followed by the
`start_trigger_frames + end_trigger_frames = 4` in-speech frames exists, so
the claimed segment shape is false. -/
theorem C3_counterexample :
    (runSeg pC3cex 100 initSegState streamC3cex).captured = [vFr, nFr] ∧
    ¬ ∃ P : List Frame, P.length ≤ pC3cex.preRollFrames ∧
        (runSeg pC3cex 100 initSegState streamC3cex).captured
          = P ++ ([vFr, vFr, vFr] ++ [nFr]) := by
  refine ⟨by decide, ?_⟩
  rintro ⟨P, _, heq⟩
  have h2 : (runSeg pC3cex 100 initSegState streamC3cex).captured.length = 2 := by decide
  rw [heq] at h2
  simp [List.length_append] at h2

/-- Claim C3 (amended): for a stream of non-voice frames, then exactly
`start_trigger_frames` voice frames, then `end_trigger_frames` non-voice
frames, all read before `max_seconds`, the captured segment is the ring
content at trigger time — the last `max(pre_roll_frames, 1)` frames seen,
which include the trailing voice frames and therefore at most
`max(pre_roll_frames, 1) - start_trigger_frames` genuine pre-roll frames —
followed by exactly the `end_trigger_frames` frames captured in speech, in
arrival order. -/
theorem C3_amended_segment_content (p : SegParams) (maxS : ℚ)
    (stream : List (ℚ × Frame)) (A B D : List Frame)
    (hst : 1 ≤ p.startTriggerFrames) (het : 1 ≤ p.endTriggerFrames)
    (htime : ∀ x ∈ stream, ¬ maxS < x.1)
    (hshape : stream.map Prod.snd = A ++ B ++ D)
    (hA : ∀ a ∈ A, a.voiced = false)
    (hB : ∀ b ∈ B, b.voiced = true) (hBlen : B.length = p.startTriggerFrames)
    (hD : ∀ d ∈ D, d.voiced = false) (hDlen : D.length = p.endTriggerFrames) :
    (runSeg p maxS initSegState stream).captured
      = lastN (max p.preRollFrames 1) (A ++ B) ++ D := by
  rw [runSeg_eq_runSegU p maxS stream initSegState htime, hshape, List.append_assoc]
  rw [show initSegState = (⟨[], [], false, 0, 0⟩ : SegState) from rfl]
  rw [segU_nonvoice_wait p hst A (B ++ D) [] 0 hA (by simp)]
  rw [List.nil_append]
  rw [segU_voice_trigger p B D (lastN (max p.preRollFrames 1) A) 0 0 hB (by omega)
    (by omega) (lastN_length_le _ _)]
  rw [lastN_lastN_append]
  have h3 := segU_silence_end p D [] [] (lastN (max p.preRollFrames 1) (A ++ B))
    p.startTriggerFrames 0 hD (by omega) (by omega)
  rw [List.append_nil] at h3
  exact h3

/-- Claim C3, witness for the amended statement: parameters `⟨2, 1, 3⟩`
(from 40 ms start, 20 ms end, 60 ms pre-roll at 20 ms frames), five non-voice
frames, two voice frames, one silence frame. -/
theorem C3_witness :
    (runSeg pC3w 1 initSegState streamC3w).captured
      = lastN (max pC3w.preRollFrames 1) (List.replicate 5 nFr ++ [vFr, vFr]) ++ [nFr] :=
  C3_amended_segment_content pC3w 1 streamC3w (List.replicate 5 nFr) [vFr, vFr] [nFr]
    (by decide) (by decide) (by decide) (by decide) (by decide) (by decide) (by decide)
    (by decide) (by decide)

/-- Claim C7: a frame source whose voiced frames number fewer than
`start_trigger_frames` — whether interleaved with or followed by non-voice
frames — can never bring the decaying voice counter (incremented on voice,
decremented with floor 0 on non-voice, hence never above the number of voiced
frames seen) up to the trigger, so the segmenter never leaves the waiting
state, captures nothing, and `record_until_vad_end` returns no-speech
whether the stream ends by the `max_seconds` cap or by source exhaustion. -/
theorem C7_below_threshold_no_speech (p : SegParams) (maxS : ℚ)
    (stream : List (ℚ × Frame))
    (hcount : stream.countP (fun x => x.2.voiced) < p.startTriggerFrames) :
    (runSeg p maxS initSegState stream).speechStarted = false ∧
    (runSeg p maxS initSegState stream).captured = [] ∧
    ∀ minSpeechMs minRms : ℚ,
      recordUntilVadEnd p maxS minSpeechMs minRms stream = none := by
  have h := segWaiting p maxS stream initSegState rfl rfl
    (by simpa [initSegState] using hcount)
  refine ⟨h.1, h.2, fun mS mR => ?_⟩
  simp [recordUntilVadEnd, h.2]

/-- Claim C7, witness: the default parameters `⟨10, 22, 10⟩` (200 ms start
trigger at 20 ms frames) with only three voiced frames, the last read after
the 20-second cap. -/
theorem C7_witness :
    streamC7.countP (fun x => x.2.voiced) < pC7.startTriggerFrames ∧
    recordUntilVadEnd pC7 20 350 (8 / 1000) streamC7 = none :=
  ⟨by decide, (C7_below_threshold_no_speech pC7 20 streamC7 (by decide)).2.2 350 (8 / 1000)⟩

/-! ## Claim C6: segment duration and energy bounds -/

/-- Claim C6, counterexample.  The claim defines `rms = sqrt(mean((s/32768)^2))`,
but the source compares `sqrt(mean + 1e-12)` against `min_rms`.  With
`min_rms = 1e-6` (so `min_rms^2 = 1e-12`) a capture of all-zero samples has
true rms `0 < min_rms`, yet `mean + 1e-12 < min_rms^2` is false, so the
capture is returned as a Segment instead of being coerced to NoSpeech:
`meanSqOf xs < min_rms^2` exhibits `rms < min_rms` (both sides squared,
both nonnegative). -/
theorem C6_counterexample :
    recordUntilVadEnd pC6 100 (1 / 100) (1 / 1000000) streamC6 = some [0, 0, 0, 0] ∧
    meanSqOf [0, 0, 0, 0] < (1 / 1000000 : ℚ) ^ 2 := by
  constructor
  · have h : (runSeg pC6 100 initSegState streamC6).captured = [zVoiced, zSilent] := by decide
    rw [recordUntilVadEnd, h]
    norm_num [joinedSamples, durMsOf, meanSqOf, rmsEps, zVoiced, zSilent]
    exact fun hh => absurd hh (by decide)
  · norm_num [meanSqOf]

/-- Claim C6 (amended): every capture returned as a Segment, on any terminal
path, satisfies `duration_ms ≥ min_speech_ms` exactly and the energy bound in
the epsilon-adjusted form the source actually checks:
`sqrt(mean + 1e-12) ≥ min_rms`, i.e. `min_rms^2 ≤ mean((s/32768)^2) + 1e-12`.
The true rms therefore cannot sit below `min_rms` by more than the `1e-12`
slack under the square root. -/
theorem C6_amended_segment_bounds (p : SegParams) (maxS mSpeech mRms : ℚ)
    (stream : List (ℚ × Frame)) (xs : List ℤ)
    (h : recordUntilVadEnd p maxS mSpeech mRms stream = some xs) :
    mSpeech ≤ durMsOf xs ∧ mRms ^ 2 ≤ meanSqOf xs + rmsEps := by
  simp only [recordUntilVadEnd] at h
  by_cases h1 : (runSeg p maxS initSegState stream).captured = []
  · rw [if_pos h1] at h
    exact absurd h (by simp)
  · rw [if_neg h1] at h
    by_cases h2 : durMsOf (joinedSamples (runSeg p maxS initSegState stream).captured) < mSpeech
        ∨ meanSqOf (joinedSamples (runSeg p maxS initSegState stream).captured) + rmsEps
            < mRms ^ 2
    · rw [if_pos h2] at h
      exact absurd h (by simp)
    · rw [if_neg h2] at h
      push_neg at h2
      obtain rfl : joinedSamples (runSeg p maxS initSegState stream).captured = xs :=
        Option.some.inj h
      exact ⟨h2.1, h2.2⟩

/-- Claim C6, witness for the amended statement: a clean two-frame capture of
zero samples with `min_speech_ms = 1/100` and `min_rms = 0` is accepted and
satisfies both bounds. -/
theorem C6_witness :
    recordUntilVadEnd pC6 100 (1 / 100) 0 streamC6 = some [0, 0, 0, 0] ∧
    (1 / 100 : ℚ) ≤ durMsOf [0, 0, 0, 0] ∧ (0 : ℚ) ^ 2 ≤ meanSqOf [0, 0, 0, 0] + rmsEps := by
  have h : recordUntilVadEnd pC6 100 (1 / 100) 0 streamC6 = some [0, 0, 0, 0] := by
    have hc : (runSeg pC6 100 initSegState streamC6).captured = [zVoiced, zSilent] := by decide
    rw [recordUntilVadEnd, hc]
    norm_num [joinedSamples, durMsOf, meanSqOf, rmsEps, zVoiced, zSilent]
    exact fun hh => absurd hh (by decide)
  exact ⟨h, C6_amended_segment_bounds pC6 100 (1 / 100) 0 streamC6 [0, 0, 0, 0] h⟩

/-! ## Claim C1: wake-detector refractory period -/

/-- Claim C1, counterexample.  `last_fire` is a local variable of
`_wait_openwakeword`, initialized to `0.0` on every call and never persisted:
with threshold `0.35` and `refractory_s = 1.2`, two successive `wait()`
invocations under a sustained score of `1.0` fire at times `1000` and `1001`,
only `1` second apart — closer than the refractory period, falsifying the
claimed invariant. -/
theorem C1_counterexample :
    wakeFires owwCfgC1 [[owwBlockA], [owwBlockB]] = [1000, 1001] ∧
    owwBlockB.now - owwBlockA.now < owwCfgC1.refractoryS ∧
    owwCfgC1.threshold ≤ owwBlockA.score ∧ owwCfgC1.threshold ≤ owwBlockB.score := by
  refine ⟨?_, by norm_num [owwBlockA, owwBlockB, owwCfgC1],
    by norm_num [owwBlockA, owwCfgC1], by norm_num [owwBlockB, owwCfgC1]⟩
  norm_num [wakeFires, waitOpenWakeWord, owwLoop, owwBlockA, owwBlockB, owwCfgC1,
    List.filterMap]

/-- Claim C1 (amended): a single `wait()` invocation fires at most once, at
the first complete block whose score reaches the threshold and whose
timestamp is at least `refractory_s` past the per-invocation initial
`last_fire = 0.0`; because `last_fire` does not persist across invocations,
consecutive `Woke` events may be arbitrarily close together. -/
theorem C1_amended_first_qualifying_block (cfg : OwwCfg) (blocks : List OwwBlock) :
    waitOpenWakeWord cfg blocks = (blocks.find? (owwQualifies cfg)).map OwwBlock.now := by
  rw [waitOpenWakeWord]
  induction blocks with
  | nil => rfl
  | cons b rest ih =>
    by_cases hf : b.fullRead = true
    · simp only [owwLoop, if_pos hf]
      by_cases hq : cfg.threshold ≤ b.score ∧ cfg.refractoryS ≤ b.now - 0
      · rw [if_pos hq]
        rw [sub_zero] at hq
        rw [List.find?_cons_of_pos _ (by simp [owwQualifies, hf, hq.1, hq.2])]
        rfl
      · rw [if_neg hq]
        rw [sub_zero] at hq
        rw [List.find?_cons_of_neg _ (by
          simp only [owwQualifies, hf, true_and, Bool.and_eq_true, decide_eq_true_eq]
          tauto)]
        exact ih
    · simp only [owwLoop, if_neg hf]
      rw [List.find?_cons_of_neg _ (by simp [owwQualifies, hf])]
      exact ih

/-! ## Dialogue-session lemmas -/

/-- With a nonempty wake phrase, a transcript whose lowercased trimmed text
does not start with the wake phrase is rejected by `_strip_wake_phrase`. -/
theorem stripWakePhrase_none_of_no_prefix (text wp : PyStr)
    (hwp : pyLower (pyStrip wp) ≠ [])
    (hpre : pyStartsWith (pyLower (pyStrip text)) (pyLower (pyStrip wp)) = false) :
    stripWakePhrase text wp = none := by
  simp only [stripWakePhrase]
  by_cases ht : pyStrip text = []
  · rw [if_pos ht]
  · rw [if_neg ht, if_neg hwp, hpre]
    simp

/-- The constructed `TurnRecord(user=.., assistant=..)` never passes the
dataclass keyword check, so the swallowed logging step stores nothing. -/
theorem loggedTurnFor_eq_none (u a : PyStr) : loggedTurnFor u a = none := rfl

/-- A turn taken while free commands remain: the transcript (nonempty after
trimming, not self-speech, not starting with the wake phrase, not a memory
command) is accepted with only leading noise characters stripped; the free
counter decrements and the idle timestamp is left untouched. -/
theorem runTurn_free_accept (wp : PyStr) (s : SessState) (env : TurnEnv) (u reply : PyStr)
    (hfree : 0 < s.freeCommandsLeft)
    (hcap : env.captureOk = true)
    (hasr : env.asrResult = .ok u)
    (hne : pyStrip u ≠ [])
    (hself : looksLikeSelfTts (pyStrip u) = false)
    (hpre : pyStartsWith (pyLower (pyStrip u)) (pyLower (pyStrip wp)) = false)
    (hstrip : pyLstrip noiseChars (pyStrip u) ≠ [])
    (hmem : isMemoryCommand (pyLstrip noiseChars (pyStrip u)) = false)
    (hllm : env.llmReply = .ok reply)
    (htts : env.ttsOk = true) :
    runTurn wp s env
      = .ok ⟨.replied (pyLstrip noiseChars (pyStrip u)) reply,
          ⟨s.lastLunaCmdTs, s.freeCommandsLeft - 1⟩, none, replyCalls⟩ := by
  simp only [runTurn, hcap, if_true, hasr]
  rw [if_neg hne, if_neg (by rw [hself]; exact Bool.false_ne_true)]
  simp only [decideTurn, if_pos hfree]
  rw [if_neg hstrip]
  rw [pyStrip_idem, hpre, Bool.and_false]
  simp only [Bool.false_eq_true, if_false]
  rw [if_neg (by rw [hmem]; exact Bool.false_ne_true), hllm]
  simp only [htts, if_true, loggedTurnFor_eq_none]

/-- A turn taken after the free commands are exhausted, with a transcript
that does not start with the wake phrase: discarded with the session state
unchanged and no collaborator invoked beyond the transcription itself. -/
theorem runTurn_locked_discard (wp : PyStr) (s : SessState) (env : TurnEnv) (u : PyStr)
    (hfree : s.freeCommandsLeft = 0)
    (hcap : env.captureOk = true)
    (hasr : env.asrResult = .ok u)
    (hne : pyStrip u ≠ [])
    (hself : looksLikeSelfTts (pyStrip u) = false)
    (hwp : pyLower (pyStrip wp) ≠ [])
    (hpre : pyStartsWith (pyLower (pyStrip u)) (pyLower (pyStrip wp)) = false) :
    runTurn wp s env = .ok ⟨.discarded, s, none, [.asr]⟩ := by
  have hnostrip : stripWakePhrase (pyStrip u) wp = none :=
    stripWakePhrase_none_of_no_prefix (pyStrip u) wp hwp (by rw [pyStrip_idem]; exact hpre)
  simp only [runTurn, hcap, if_true, hasr]
  rw [if_neg hne, if_neg (by rw [hself]; exact Bool.false_ne_true)]
  simp only [decideTurn, hfree, lt_irrefl, if_false, hnostrip]
  rw [← hfree]

/-! ## Claims C4, C5, C9, C10: dialogue session -/

/-- Claim C4, counterexample.  The first free-command transcript is not taken
verbatim: the session applies `lstrip(" \t\r\n,.:;!?-")` to it (assistant.py
line 194), so the transcript `",hi there"` is accepted with command text
`"hi there"`, not `",hi there"`. -/
theorem C4_counterexample :
    runTurn (py "luna") ⟨0, 2⟩ envC4cex
      = .ok ⟨.replied (py "hi there") (py "hello"), ⟨0, 1⟩, none, replyCalls⟩ ∧
    envC4cex.asrResult = .ok (py ",hi there") ∧ py "hi there" ≠ py ",hi there" :=
  ⟨rfl, rfl, by decide⟩

/-- Claim C4 (amended): in a session with `free_commands_left = 2`, the first
two transcripts that do not start with the wake phrase are accepted as
commands with only leading punctuation/whitespace stripped (verbatim whenever
the transcript starts with none of those characters), each consuming one free
slot and leaving the idle timestamp `t0` — hence the awake deadline —
untouched; the third such transcript is discarded with the session state
unchanged and no collaborator call beyond the transcription
(`calls = [.asr]`: no LLM, no TTS, no memory access). -/
theorem C4_amended_free_command_policy (wp : PyStr) (t0 : ℚ)
    (e1 e2 e3 : TurnEnv) (u1 u2 u3 r1 r2 : PyStr)
    (hwp : pyLower (pyStrip wp) ≠ [])
    (h1cap : e1.captureOk = true) (h1asr : e1.asrResult = .ok u1)
    (h1ne : pyStrip u1 ≠ []) (h1self : looksLikeSelfTts (pyStrip u1) = false)
    (h1pre : pyStartsWith (pyLower (pyStrip u1)) (pyLower (pyStrip wp)) = false)
    (h1strip : pyLstrip noiseChars (pyStrip u1) ≠ [])
    (h1mem : isMemoryCommand (pyLstrip noiseChars (pyStrip u1)) = false)
    (h1llm : e1.llmReply = .ok r1) (h1tts : e1.ttsOk = true)
    (h2cap : e2.captureOk = true) (h2asr : e2.asrResult = .ok u2)
    (h2ne : pyStrip u2 ≠ []) (h2self : looksLikeSelfTts (pyStrip u2) = false)
    (h2pre : pyStartsWith (pyLower (pyStrip u2)) (pyLower (pyStrip wp)) = false)
    (h2strip : pyLstrip noiseChars (pyStrip u2) ≠ [])
    (h2mem : isMemoryCommand (pyLstrip noiseChars (pyStrip u2)) = false)
    (h2llm : e2.llmReply = .ok r2) (h2tts : e2.ttsOk = true)
    (h3cap : e3.captureOk = true) (h3asr : e3.asrResult = .ok u3)
    (h3ne : pyStrip u3 ≠ []) (h3self : looksLikeSelfTts (pyStrip u3) = false)
    (h3pre : pyStartsWith (pyLower (pyStrip u3)) (pyLower (pyStrip wp)) = false) :
    runTurn wp ⟨t0, 2⟩ e1
      = .ok ⟨.replied (pyLstrip noiseChars (pyStrip u1)) r1, ⟨t0, 1⟩, none, replyCalls⟩ ∧
    runTurn wp ⟨t0, 1⟩ e2
      = .ok ⟨.replied (pyLstrip noiseChars (pyStrip u2)) r2, ⟨t0, 0⟩, none, replyCalls⟩ ∧
    runTurn wp ⟨t0, 0⟩ e3 = .ok ⟨.discarded, ⟨t0, 0⟩, none, [.asr]⟩ :=
  ⟨runTurn_free_accept wp ⟨t0, 2⟩ e1 u1 r1 (show (0 : ℕ) < 2 by decide) h1cap h1asr h1ne
      h1self h1pre h1strip h1mem h1llm h1tts,
    runTurn_free_accept wp ⟨t0, 1⟩ e2 u2 r2 (show (0 : ℕ) < 1 by decide) h2cap h2asr h2ne
      h2self h2pre h2strip h2mem h2llm h2tts,
    runTurn_locked_discard wp ⟨t0, 0⟩ e3 u3 rfl h3cap h3asr h3ne h3self hwp h3pre⟩

/-- Claim C4, witness for the amended statement: wake phrase `"luna"`, three
plain transcripts, starting from `⟨t0, 2⟩ = ⟨0, 2⟩`. -/
theorem C4_witness :
    runTurn (py "luna") ⟨0, 2⟩ envC4a
      = .ok ⟨.replied (pyLstrip noiseChars (pyStrip (py "what time is it"))) (py "noon"),
          ⟨0, 1⟩, none, replyCalls⟩ ∧
    runTurn (py "luna") ⟨0, 1⟩ envC4b
      = .ok ⟨.replied (pyLstrip noiseChars (pyStrip (py "tell me a joke"))) (py "no"),
          ⟨0, 0⟩, none, replyCalls⟩ ∧
    runTurn (py "luna") ⟨0, 0⟩ envC4c = .ok ⟨.discarded, ⟨0, 0⟩, none, [.asr]⟩ :=
  C4_amended_free_command_policy (py "luna") 0 envC4a envC4b envC4c
    (py "what time is it") (py "tell me a joke") (py "turn off the lights")
    (py "noon") (py "no")
    (by decide) rfl rfl (by decide) (by decide) (by decide) (by decide) (by decide) rfl rfl
    rfl rfl (by decide) (by decide) (by decide) (by decide) (by decide) rfl rfl
    rfl rfl (by decide) (by decide) (by decide)

/-- Claim C5: with wake phrase `"luna"`, the utterance
`"Luna, remember my name is Bob"` processed on the wake-phrase-required path
is stripped to the command `"remember my name is Bob"` (wake phrase plus
following punctuation and whitespace removed), classified with
`resets_idle = true`, and the turn sets `last_luna_cmd_ts` to the current
time `n`, extending the awake deadline — the loop continues while
`now - last_luna_cmd_ts < awake_window_s` — to `n + awake_window_s`. -/
theorem C5_wake_phrase_strip_scenario (t0 n : ℚ) (r : PyStr) (pin rc : List MemRow) :
    stripWakePhrase (py "Luna, remember my name is Bob") (py "luna")
      = some (py "remember my name is Bob") ∧
    decideTurn (py "luna") 0 (py "Luna, remember my name is Bob")
      = (.command (py "remember my name is Bob") true, 0) ∧
    runTurn (py "luna") ⟨t0, 0⟩
        ⟨n, true, .ok (py "Luna, remember my name is Bob"), .ok r, true, pin, rc⟩
      = .ok ⟨.replied (py "remember my name is Bob") r, ⟨n, 0⟩, none, replyCalls⟩ :=
  ⟨by decide, by decide, rfl⟩

/-- Claim C9: wake-phrase recognition is a raw case-insensitive prefix test
with no word-boundary check.  Any transcript whose lowercased trimmed text
begins with the wake-phrase characters — also mid-word, as in `"Lunatic"`
with wake phrase `"luna"` — counts as wake-prefixed: `_strip_wake_phrase`
strips the characters mid-word, the classification returns the remainder
with `resets_idle = true`, and the turn resets the idle timestamp to the
current time `n`. -/
theorem C9_prefix_no_word_boundary (wp text : PyStr)
    (hwp : pyLower (pyStrip wp) ≠ [])
    (ht : pyStrip text ≠ [])
    (hself : looksLikeSelfTts (pyStrip text) = false)
    (hpre : pyStartsWith (pyLower (pyStrip text)) (pyLower (pyStrip wp)) = true)
    (hrest : pyLstrip noiseChars
        (pyStrip ((pyStrip text).drop (pyLower (pyStrip wp)).length)) ≠ [])
    (hmem : isMemoryCommand (pyLstrip noiseChars
        (pyStrip ((pyStrip text).drop (pyLower (pyStrip wp)).length))) = false) :
    stripWakePhrase text wp
      = some (pyLstrip noiseChars
          (pyStrip ((pyStrip text).drop (pyLower (pyStrip wp)).length))) ∧
    decideTurn wp 0 (pyStrip text)
      = (.command (pyLstrip noiseChars
          (pyStrip ((pyStrip text).drop (pyLower (pyStrip wp)).length))) true, 0) ∧
    ∀ (t0 n : ℚ) (reply : PyStr) (pin rc : List MemRow),
      runTurn wp ⟨t0, 0⟩ ⟨n, true, .ok text, .ok reply, true, pin, rc⟩
        = .ok ⟨.replied (pyLstrip noiseChars
            (pyStrip ((pyStrip text).drop (pyLower (pyStrip wp)).length))) reply,
            ⟨n, 0⟩, none, replyCalls⟩ := by
  have h1 : stripWakePhrase text wp
      = some (pyLstrip noiseChars
          (pyStrip ((pyStrip text).drop (pyLower (pyStrip wp)).length))) := by
    simp only [stripWakePhrase]
    rw [if_neg ht, if_neg hwp, hpre]
    simp only [if_true]
    rw [if_neg hrest]
  have h1' : stripWakePhrase (pyStrip text) wp
      = some (pyLstrip noiseChars
          (pyStrip ((pyStrip text).drop (pyLower (pyStrip wp)).length))) := by
    have : stripWakePhrase (pyStrip text) wp = stripWakePhrase text wp := by
      simp only [stripWakePhrase, pyStrip_idem]
    rw [this, h1]
  have h2 : decideTurn wp 0 (pyStrip text)
      = (.command (pyLstrip noiseChars
          (pyStrip ((pyStrip text).drop (pyLower (pyStrip wp)).length))) true, 0) := by
    simp only [decideTurn, lt_irrefl, if_false, h1', pyLstrip_idem]
    rw [if_neg hrest]
  refine ⟨h1, h2, fun t0 n reply pin rc => ?_⟩
  simp only [runTurn, if_true]
  rw [if_neg ht, if_neg (by rw [hself]; exact Bool.false_ne_true)]
  simp only [h2]
  rw [if_neg (by rw [hmem]; exact Bool.false_ne_true)]
  simp only [eq_self_iff_true, if_true, loggedTurnFor_eq_none]

/-- Claim C9, witness: transcript `"Lunatic weather today"` with wake phrase
`"luna"` is treated as wake-prefixed, stripped mid-word to
`"tic weather today"`, and resets the idle timestamp to the turn time `7`. -/
theorem C9_witness :
    stripWakePhrase (py "Lunatic weather today") (py "luna")
      = some (py "tic weather today") ∧
    runTurn (py "luna") ⟨0, 0⟩ envC9w
      = .ok ⟨.replied (py "tic weather today") (py "stormy"), ⟨7, 0⟩, none, replyCalls⟩ := by
  have h := C9_prefix_no_word_boundary (py "luna") (py "Lunatic weather today")
    (by decide) (by decide) (by decide) (by decide) (by decide) (by decide)
  have he : pyLstrip noiseChars
      (pyStrip ((pyStrip (py "Lunatic weather today")).drop
        (pyLower (pyStrip (py "luna"))).length)) = py "tic weather today" := by decide
  constructor
  · rw [← he]; exact h.1
  · have h3 := h.2.2 0 7 (py "stormy") [] []
    rw [he] at h3
    exact h3

/-- Claim C10: the app-tree session logs turns with
`TurnRecord(user=stripped, assistant=reply)`, but that tree's `TurnRecord`
dataclass declares no `user` or `assistant` field and requires `session_id`,
`ts_unix`, `user_text`, `assistant_text`; the keyword check therefore fails
(a `TypeError` is raised at construction), the surrounding
`try/except Exception: pass` swallows it, every completed turn finishes
normally, and no turn is ever stored. -/
theorem C10_turn_logging_never_records :
    mkDataclassOk turnRecordFields addTurnKwargs = false ∧
    (∀ u a : PyStr, loggedTurnFor u a = none) ∧
    (∀ (wp : PyStr) (s : SessState) (env : TurnEnv) (r : TurnResult),
      runTurn wp s env = .ok r → r.logged = none) := by
  refine ⟨by decide, fun u a => rfl, fun wp s env r h => ?_⟩
  unfold runTurn at h
  repeat
    all_goals
      first
      | exact Except.noConfusion h
      | (injection h with h2; rw [← h2])
      | split at h
      | dsimp only at h
  all_goals rfl

/-- Claim C10, witness: a plain successful turn from a fresh session
completes with outcome `replied` and an empty log. -/
theorem C10_witness :
    runTurn (py "luna") ⟨0, 2⟩ envC10 = .ok resC10 ∧ resC10.logged = none :=
  ⟨rfl, C10_turn_logging_never_records.2.2 (py "luna") ⟨0, 2⟩ envC10 resC10 rfl⟩

/-! ## Claims C2 and C8: outer loop and awake-window clamp -/

/-- Claim C2 (code bug): `LunaAssistant.run` wraps no collaborator call in a
handler — only the logging call sits in a `try/except` — so a per-turn
failure such as `TranscriptionFailed` raised inside the first turn of a
session propagates out of the inner turn loop, out of the outer
`while True` loop, and out of `run` itself: the whole run ends with the
error, whatever wake cycles `cs` would have followed, instead of the session
ending alone and the wake detector being invoked again. -/
theorem C2_turn_failure_crashes_run (wp : PyStr) (window : ℚ) (c : WakeCycle)
    (cs : List WakeCycle) (env : TurnEnv) (ts : List TurnEnv) (e : TurnError)
    (hw : c.woke = true) (ha : c.ackOk = true) (ht : c.turns = env :: ts)
    (hcap : env.captureOk = true) (hasr : env.asrResult = .error e)
    (hdl : env.now - c.wakeNow < window) :
    assistantRun wp window (c :: cs) = .error e := by
  simp only [assistantRun, hw, ha, if_true, ht]
  have hsess : runSessionTurns wp window ⟨c.wakeNow, 2⟩ (env :: ts) = .error e := by
    simp only [runSessionTurns]
    rw [if_neg (by exact not_le.mpr hdl)]
    simp only [runTurn, hcap, if_true, hasr]
  rw [hsess]

/-- Claim C2, witness: a woken cycle whose first turn raises
`TranscriptionFailed` crashes the whole run; the later cycle never runs. -/
theorem C2_witness :
    envAsrFail.now - cycleFail.wakeNow < 300 ∧
    assistantRun (py "luna") 300 [cycleFail, cycleLater] = .error .transcriptionFailed :=
  ⟨by norm_num [envAsrFail, cycleFail],
    C2_turn_failure_crashes_run (py "luna") 300 cycleFail [cycleLater] envAsrFail []
      .transcriptionFailed rfl rfl rfl rfl rfl (by norm_num [envAsrFail, cycleFail])⟩

/-- Claim C8: an `awake_window_s` configured below the 60-second floor (for
example `10`) is not used: `__init__` clamps it to the safe default `300`,
the assistant runs with the clamped window, and the session deadline check
behaves as `now - last_luna_cmd_ts < 300` — so the deadline set at wake and
every extension after a wake-phrase command amount to `300` seconds. -/
theorem C8_awake_window_clamped (v : ℚ) (hv : v < 60) :
    awakeWindow v = 300 ∧
    (∀ (wp : PyStr) (cycles : List WakeCycle),
      assistantMain v wp cycles = assistantRun wp 300 cycles) ∧
    (∀ (wp : PyStr) (s : SessState) (e : TurnEnv) (rest : List TurnEnv),
      300 ≤ e.now - s.lastLunaCmdTs →
      runSessionTurns wp (awakeWindow v) s (e :: rest) = .ok s) := by
  have h : awakeWindow v = 300 := if_neg (not_le.mpr hv)
  refine ⟨h, fun wp cycles => by rw [assistantMain, h], fun wp s e rest hle => ?_⟩
  rw [h]
  simp only [runSessionTurns]
  rw [if_pos hle]

/-- Claim C8, witness: configured window `10` is below the floor, the clamp
yields `300`, and a turn observed 400 seconds after the last wake-phrase
command ends the session. -/
theorem C8_witness :
    (10 : ℚ) < 60 ∧ awakeWindow 10 = 300 ∧
    runSessionTurns (py "luna") (awakeWindow 10) ⟨0, 2⟩ [envC8late] = .ok ⟨0, 2⟩ :=
  ⟨by norm_num, (C8_awake_window_clamped 10 (by norm_num)).1,
    (C8_awake_window_clamped 10 (by norm_num)).2.2 (py "luna") ⟨0, 2⟩ envC8late []
      (by norm_num [envC8late])⟩
